import Mathlib

/-!
Verification development for the MyCLI command-discovery pipeline
(`backend/discovery` plus the artifact models in `backend/models.py`).

The Python source is shallowly embedded: parsed YAML/JSON documents become a
`Value` inductive, pydantic model construction becomes checked constructors
returning `Except String _`, and the filesystem a plugin walks becomes a
`DirTree`.  Floating point confidences/thresholds are embedded as rationals
(the comparisons the code performs are order comparisons on decimal literals,
which rationals model exactly).
-/

namespace MyCLI

/-! ## Python string helpers (over `List Char`)

The Python `str.split()`, `str.strip()`, `str.replace` helpers are embedded
as structurally recursive functions over `List Char` so that every concrete
run reduces in the kernel. -/

/-- Characters that Python `str.split()` / `str.strip()` treat as whitespace. -/
def pyIsSpace (c : Char) : Bool :=
  c = ' ' || c = '\t' || c = '\n' || c = '\r' || c = '\x0b' || c = '\x0c'

/-- Python `str.strip()` on a character list. -/
def pyStripChars (cs : List Char) : List Char :=
  ((cs.dropWhile pyIsSpace).reverse.dropWhile pyIsSpace).reverse

/-- Python `str.strip()`. -/
def pyStrip (s : String) : String :=
  String.mk (pyStripChars s.data)

/-- Helper for `pySplitWs`: accumulate the current (reversed) token. -/
def pySplitWsAux : List Char → List Char → List (List Char)
  | [], acc => if acc.isEmpty then [] else [acc.reverse]
  | c :: cs, acc =>
      if pyIsSpace c then
        if acc.isEmpty then pySplitWsAux cs []
        else acc.reverse :: pySplitWsAux cs []
      else pySplitWsAux cs (c :: acc)

/-- Python `str.split()` (no argument): split on whitespace runs, no empty
tokens. -/
def pySplitWs (s : String) : List String :=
  (pySplitWsAux s.data []).map String.mk

/-- Python `str.replace("-", "_")` (single-character replacement). -/
def pyReplaceChar (a b : Char) (s : String) : String :=
  String.mk (s.data.map fun c => if c = a then b else c)

/-- Python `sep.join(parts)`. -/
def pyJoinSep (sep : String) : List String → String
  | [] => ""
  | [s] => s
  | s :: rest => s ++ sep ++ pyJoinSep sep rest

/-- Python `tok.startswith(pre)`. -/
def pyStartsWith (pre : List Char) (s : String) : Bool :=
  pre.isPrefixOf s.data

/-- Python `tok.endswith(">")` for a single character. -/
def pyEndsWithChar (c : Char) (s : String) : Bool :=
  match s.data.getLast? with
  | some d => d = c
  | none => false

/-- Python `body.split("=", 1)`: the part before the first `=` and the part
after it (which may itself contain `=`). Returns `none` when `=` is absent,
i.e. `"=" in body` is false. -/
def pySplitEq1 (cs : List Char) : Option (List Char × List Char) :=
  match cs with
  | [] => none
  | c :: rest =>
      if c = '=' then some ([], rest)
      else match pySplitEq1 rest with
        | some (k, v) => some (c :: k, v)
        | none => none

/-- Python `path.split("/")`: split on every slash, keeping empty segments. -/
def pySplitSlash : List Char → List (List Char)
  | [] => [[]]
  | c :: cs =>
      if c = '/' then [] :: pySplitSlash cs
      else match pySplitSlash cs with
        | [] => [[c]]
        | seg :: rest => (c :: seg) :: rest

/-- Python `path.split("/")[-1]`: the last slash-separated segment. -/
def lastPathSegment (s : String) : String :=
  String.mk ((pySplitSlash s.data).getLastD [])

/-! ## SHA-256 over byte lists

Executable embedding of `hashlib.sha256(...).hexdigest()`: bytes are `Nat`s
below 256, 32-bit words are `Nat`s reduced mod `2^32`. -/

/-- Truncate to a 32-bit word. -/
def w32 (n : Nat) : Nat := n % 4294967296

/-- 32-bit rotate right. -/
def rotr32 (k n : Nat) : Nat :=
  w32 (Nat.lor (Nat.shiftRight n k) (Nat.shiftLeft n (32 - k)))

/-- 32-bit bitwise complement. -/
def not32 (n : Nat) : Nat := Nat.xor n 4294967295

/-- SHA-256 `Ch(e,f,g)`. -/
def sha256Ch (e f g : Nat) : Nat :=
  Nat.xor (Nat.land e f) (Nat.land (not32 e) g)

/-- SHA-256 `Maj(a,b,c)`. -/
def sha256Maj (a b c : Nat) : Nat :=
  Nat.xor (Nat.xor (Nat.land a b) (Nat.land a c)) (Nat.land b c)

/-- SHA-256 `Σ0`. -/
def sha256S0 (a : Nat) : Nat :=
  Nat.xor (Nat.xor (rotr32 2 a) (rotr32 13 a)) (rotr32 22 a)

/-- SHA-256 `Σ1`. -/
def sha256S1 (e : Nat) : Nat :=
  Nat.xor (Nat.xor (rotr32 6 e) (rotr32 11 e)) (rotr32 25 e)

/-- SHA-256 `σ0`. -/
def sha256s0 (x : Nat) : Nat :=
  Nat.xor (Nat.xor (rotr32 7 x) (rotr32 18 x)) (Nat.shiftRight x 3)

/-- SHA-256 `σ1`. -/
def sha256s1 (x : Nat) : Nat :=
  Nat.xor (Nat.xor (rotr32 17 x) (rotr32 19 x)) (Nat.shiftRight x 10)

/-- The 64 SHA-256 round constants. -/
def sha256K : List Nat :=
  [1116352408, 1899447441, 3049323471,
   3921009573, 961987163, 1508970993,
   2453635748, 2870763221, 3624381080,
   310598401, 607225278, 1426881987,
   1925078388, 2162078206, 2614888103,
   3248222580, 3835390401, 4022224774,
   264347078, 604807628, 770255983,
   1249150122, 1555081692, 1996064986,
   2554220882, 2821834349, 2952996808,
   3210313671, 3336571891, 3584528711,
   113926993, 338241895, 666307205,
   773529912, 1294757372, 1396182291,
   1695183700, 1986661051, 2177026350,
   2456956037, 2730485921, 2820302411,
   3259730800, 3345764771, 3516065817,
   3600352804, 4094571909, 275423344,
   430227734, 506948616, 659060556,
   883997877, 958139571, 1322822218,
   1537002063, 1747873779, 1955562222,
   2024104815, 2227730452, 2361852424,
   2428436474, 2756734187, 3204031479,
   3329325298]

/-- Initial SHA-256 state. -/
def sha256H0 : List Nat :=
  [1779033703, 3144134277, 1013904242,
   2773480762, 1359893119, 2600822924,
   528734635, 1541459225]

/-- Big-endian bytes of a `Nat`, fixed width `k` bytes. -/
def beBytes : Nat → Nat → List Nat
  | 0, _ => []
  | k + 1, n => beBytes k (n / 256) ++ [n % 256]

/-- SHA-256 padding: append `0x80`, zero bytes, and the 64-bit big-endian
bit length, so the total length is a multiple of 64. -/
def sha256Pad (msg : List Nat) : List Nat :=
  let l := msg.length
  let padZeros := (64 - (l + 9) % 64) % 64
  msg ++ [0x80] ++ List.replicate padZeros 0 ++ beBytes 8 (l * 8)

/-- Split a list into chunks of 64 (input length is a multiple of 64). -/
def chunks64 (fuel : Nat) (bs : List Nat) : List (List Nat) :=
  match fuel, bs with
  | 0, _ => []
  | _, [] => []
  | f + 1, bs => bs.take 64 :: chunks64 f (bs.drop 64)

/-- Combine 4 consecutive bytes into big-endian 32-bit words. -/
def bytesToWords : List Nat → List Nat
  | b0 :: b1 :: b2 :: b3 :: rest =>
      (((b0 * 256 + b1) * 256 + b2) * 256 + b3) :: bytesToWords rest
  | _ => []

/-- Extend 16 message words to 64 (accumulator holds the words so far,
reversed). -/
def sha256Extend : Nat → List Nat → List Nat
  | 0, acc => acc.reverse
  | k + 1, acc =>
      let w2 := acc.getD 1 0
      let w7 := acc.getD 6 0
      let w15 := acc.getD 14 0
      let w16 := acc.getD 15 0
      sha256Extend k (w32 (sha256s1 w2 + w7 + sha256s0 w15 + w16) :: acc)

/-- One round of the SHA-256 compression function. -/
def sha256Round (st : List Nat) (kw : Nat × Nat) : List Nat :=
  match st with
  | [a, b, c, d, e, f, g, h] =>
      let t1 := w32 (h + sha256S1 e + sha256Ch e f g + kw.1 + kw.2)
      let t2 := w32 (sha256S0 a + sha256Maj a b c)
      [w32 (t1 + t2), a, b, c, w32 (d + t1), e, f, g]
  | st => st

/-- Compress one 64-byte block into the running state. -/
def sha256Block (st : List Nat) (block : List Nat) : List Nat :=
  let ws := sha256Extend 48 (bytesToWords block).reverse
  let st2 := (sha256K.zip ws).foldl sha256Round st
  (st.zip st2).map fun p => w32 (p.1 + p.2)

/-- SHA-256 digest of a byte list, as eight 32-bit words. -/
def sha256Words (msg : List Nat) : List Nat :=
  let padded := sha256Pad msg
  (chunks64 (padded.length + 1) padded).foldl sha256Block sha256H0

/-- Lowercase hex digit. -/
def hexDigit (n : Nat) : Char :=
  if n < 10 then Char.ofNat (48 + n) else Char.ofNat (87 + n)

/-- Eight lowercase hex digits of a 32-bit word, most significant first. -/
def hex8 (n : Nat) : List Char :=
  [hexDigit (n / 16 ^ 7 % 16), hexDigit (n / 16 ^ 6 % 16),
   hexDigit (n / 16 ^ 5 % 16), hexDigit (n / 16 ^ 4 % 16),
   hexDigit (n / 16 ^ 3 % 16), hexDigit (n / 16 ^ 2 % 16),
   hexDigit (n / 16 % 16), hexDigit (n % 16)]

/-- Embedding of `hashlib.sha256(msg).hexdigest()` as a character list. -/
def sha256HexChars (msg : List Nat) : List Char :=
  ((sha256Words msg).map hex8).flatten

/-- UTF-8 encoding of one Unicode code point. -/
def utf8EncodeCodepoint (n : Nat) : List Nat :=
  if n < 0x80 then [n]
  else if n < 0x800 then
    [0xC0 + n / 64, 0x80 + n % 64]
  else if n < 0x10000 then
    [0xE0 + n / 4096, 0x80 + n / 64 % 64, 0x80 + n % 64]
  else
    [0xF0 + n / 262144, 0x80 + n / 4096 % 64, 0x80 + n / 64 % 64, 0x80 + n % 64]

/-- Python `s.encode("utf-8")` as a byte list. -/
def utf8Bytes (s : String) : List Nat :=
  (s.data.map fun c => utf8EncodeCodepoint c.toNat).flatten

/-! ## Parsed YAML / JSON documents

`yaml.safe_load` / `json.loads` results are embedded as a small dynamic value
type (mapping keys are strings, which covers every document the pipeline
reads).  A file whose parse raises is embedded as `none` at the filesystem
level. -/

/-- A parsed YAML/JSON document. -/
inductive Value where
  | null
  | bool (b : Bool)
  | int (n : Int)
  | str (s : String)
  | list (xs : List Value)
  | dict (kvs : List (String × Value))

mutual

/-- Decidable equality of parsed values (the deriver does not handle the
nested occurrences, so it is spelled out). -/
def Value.decEq : (a b : Value) → Decidable (a = b)
  | .null, .null => isTrue rfl
  | .bool x, .bool y =>
      if h : x = y then isTrue (by rw [h])
      else isFalse (by intro hh; injection hh; contradiction)
  | .int x, .int y =>
      if h : x = y then isTrue (by rw [h])
      else isFalse (by intro hh; injection hh; contradiction)
  | .str x, .str y =>
      if h : x = y then isTrue (by rw [h])
      else isFalse (by intro hh; injection hh; contradiction)
  | .list xs, .list ys =>
      match Value.decEqList xs ys with
      | isTrue h => isTrue (by rw [h])
      | isFalse h => isFalse (by intro hh; injection hh; contradiction)
  | .dict xs, .dict ys =>
      match Value.decEqDict xs ys with
      | isTrue h => isTrue (by rw [h])
      | isFalse h => isFalse (by intro hh; injection hh; contradiction)
  | .null, .bool _ => isFalse fun h => Value.noConfusion h
  | .null, .int _ => isFalse fun h => Value.noConfusion h
  | .null, .str _ => isFalse fun h => Value.noConfusion h
  | .null, .list _ => isFalse fun h => Value.noConfusion h
  | .null, .dict _ => isFalse fun h => Value.noConfusion h
  | .bool _, .null => isFalse fun h => Value.noConfusion h
  | .bool _, .int _ => isFalse fun h => Value.noConfusion h
  | .bool _, .str _ => isFalse fun h => Value.noConfusion h
  | .bool _, .list _ => isFalse fun h => Value.noConfusion h
  | .bool _, .dict _ => isFalse fun h => Value.noConfusion h
  | .int _, .null => isFalse fun h => Value.noConfusion h
  | .int _, .bool _ => isFalse fun h => Value.noConfusion h
  | .int _, .str _ => isFalse fun h => Value.noConfusion h
  | .int _, .list _ => isFalse fun h => Value.noConfusion h
  | .int _, .dict _ => isFalse fun h => Value.noConfusion h
  | .str _, .null => isFalse fun h => Value.noConfusion h
  | .str _, .bool _ => isFalse fun h => Value.noConfusion h
  | .str _, .int _ => isFalse fun h => Value.noConfusion h
  | .str _, .list _ => isFalse fun h => Value.noConfusion h
  | .str _, .dict _ => isFalse fun h => Value.noConfusion h
  | .list _, .null => isFalse fun h => Value.noConfusion h
  | .list _, .bool _ => isFalse fun h => Value.noConfusion h
  | .list _, .int _ => isFalse fun h => Value.noConfusion h
  | .list _, .str _ => isFalse fun h => Value.noConfusion h
  | .list _, .dict _ => isFalse fun h => Value.noConfusion h
  | .dict _, .null => isFalse fun h => Value.noConfusion h
  | .dict _, .bool _ => isFalse fun h => Value.noConfusion h
  | .dict _, .int _ => isFalse fun h => Value.noConfusion h
  | .dict _, .str _ => isFalse fun h => Value.noConfusion h
  | .dict _, .list _ => isFalse fun h => Value.noConfusion h

/-- Decidable equality of parsed value lists. -/
def Value.decEqList : (xs ys : List Value) → Decidable (xs = ys)
  | [], [] => isTrue rfl
  | [], _ :: _ => isFalse fun h => List.noConfusion h
  | _ :: _, [] => isFalse fun h => List.noConfusion h
  | x :: xs, y :: ys =>
      match Value.decEq x y, Value.decEqList xs ys with
      | isTrue h1, isTrue h2 => isTrue (by rw [h1, h2])
      | isFalse h1, _ => isFalse (by intro h; injection h; contradiction)
      | isTrue _, isFalse h2 => isFalse (by intro h; injection h; contradiction)

/-- Decidable equality of parsed mappings. -/
def Value.decEqDict : (xs ys : List (String × Value)) → Decidable (xs = ys)
  | [], [] => isTrue rfl
  | [], _ :: _ => isFalse fun h => List.noConfusion h
  | _ :: _, [] => isFalse fun h => List.noConfusion h
  | (k, v) :: xs, (l, w) :: ys =>
      if hk : k = l then
        match Value.decEq v w, Value.decEqDict xs ys with
        | isTrue hv, isTrue ht => isTrue (by rw [hk, hv, ht])
        | isFalse hv, _ =>
            isFalse (by
              intro h; injection h with h1 h2
              exact hv (congrArg Prod.snd h1))
        | isTrue _, isFalse ht =>
            isFalse (by intro h; injection h; contradiction)
      else
        isFalse (by
          intro h; injection h with h1 h2
          exact hk (congrArg Prod.fst h1))

end

instance : DecidableEq Value := Value.decEq

/-- Python truthiness of a parsed value. -/
def Value.truthy : Value → Bool
  | .null => false
  | .bool b => b
  | .int n => n != 0
  | .str s => decide (s ≠ "")
  | .list xs => !xs.isEmpty
  | .dict kvs => !kvs.isEmpty

/-- First binding of a key in a parsed mapping. -/
def Value.lookup (kvs : List (String × Value)) (k : String) : Option Value :=
  match kvs with
  | [] => none
  | (k', v) :: rest => if k' = k then some v else Value.lookup rest k

/-- Embedding of `d.get(k)` on a value known to be a mapping; `null` when the key is
absent, `null` on a non-mapping (callers establish mapping-ness first). -/
def Value.getKey : Value → String → Value
  | .dict kvs, k => (Value.lookup kvs k).getD .null
  | _, _ => .null

/-- Python `a or b`. -/
def Value.orElse (a b : Value) : Value :=
  if a.truthy then a else b

/-- Embedding of `isinstance(v, dict)`. -/
def Value.isDict : Value → Bool
  | .dict _ => true
  | _ => false

/-- Embedding of `d.get(k, dflt)`: raises `AttributeError` when the receiver is not a
mapping, exactly as in Python. -/
def Value.get? (v : Value) (k : String) (dflt : Value) : Except String Value :=
  match v with
  | .dict kvs => .ok ((Value.lookup kvs k).getD dflt)
  | _ => .error "AttributeError: object has no attribute get"

/-- Embedding of `d.items()`: raises `AttributeError` on a non-mapping. -/
def Value.items : Value → Except String (List (String × Value))
  | .dict kvs => .ok kvs
  | _ => .error "AttributeError: object has no attribute items"

/-! ## Models (`backend/models.py`) -/

/-- The `Origin` enum. -/
inductive Origin where
  | TASKFILE
  | PACKAGE_SCRIPT
  | PYTHON
  | POWERSHELL
  | SHELL
  | DOCKER
  | LANGGRAPH
  | TEMPLATE
  | OTHER
deriving DecidableEq

/-- The string value of each `Origin` member. -/
def Origin.value : Origin → String
  | .TASKFILE => "taskfile"
  | .PACKAGE_SCRIPT => "package_script"
  | .PYTHON => "python"
  | .POWERSHELL => "powershell"
  | .SHELL => "shell"
  | .DOCKER => "docker"
  | .LANGGRAPH => "langgraph"
  | .TEMPLATE => "template"
  | .OTHER => "other"

/-- Embedding of `Origin(s)`: look a string up in the enum (`none` embeds the
`ValueError`). -/
def Origin.ofString? (s : String) : Option Origin :=
  if s = "taskfile" then some .TASKFILE
  else if s = "package_script" then some .PACKAGE_SCRIPT
  else if s = "python" then some .PYTHON
  else if s = "powershell" then some .POWERSHELL
  else if s = "shell" then some .SHELL
  else if s = "docker" then some .DOCKER
  else if s = "langgraph" then some .LANGGRAPH
  else if s = "template" then some .TEMPLATE
  else if s = "other" then some .OTHER
  else none

/-- The `ParameterType` literal. -/
inductive PType where
  | string
  | integer
  | float
  | boolean
  | enum
  | path
deriving DecidableEq

/-- A Python value usable as a parameter default / metadata entry. -/
inductive PValue where
  | str (s : String)
  | bool (b : Bool)
  | num (q : ℚ)
deriving DecidableEq

/-- The `ParameterDefinition` fields (pre-validation record). -/
structure ParameterDefinition where
  name : String
  type : PType
  description : Option String := none
  required : Bool := false
  default : Option PValue := none
  enum : Option (List String) := none
  min : Option ℚ := none
  max : Option ℚ := none
  regex : Option String := none
  examples : Option (List String) := none
  meta : List (String × PValue) := []
deriving DecidableEq

/-- Embedding of `ParameterDefinition._validate_constraints`, parameterized by the
`re.compile` success predicate `rc` (the pipeline never attaches a regex, so
every claim about it quantifies over `rc`). -/
def ParameterDefinition.validate (rc : String → Bool)
    (p : ParameterDefinition) : Except String ParameterDefinition :=
  let enumErr : Option String :=
    match p.enum with
    | some es =>
        if p.type ≠ .enum then some "enum provided but type is not enum"
        else if es.length = 0 then some "enum list cannot be empty"
        else none
    | none => none
  match enumErr with
  | some msg => .error msg
  | none =>
    if (p.min.isSome || p.max.isSome)
        && !(p.type = .integer || p.type = .float) then
      .error "min and max only valid for numeric types"
    else
      let regexErr : Option String :=
        match p.regex with
        | some r =>
            if p.type ≠ .string then
              some "regex only valid when type == string"
            else if !rc r then some "Invalid regex pattern"
            else none
        | none => none
      match regexErr with
      | some msg => .error msg
      | none =>
          if p.required && p.default.isSome then
            .error "Required parameters must not define a default value"
          else .ok p

/-- Constructing a `ParameterDefinition`: pydantic field validation
(`name` has `min_length=1`) followed by `_validate_constraints`. -/
def mkParameterDefinition (rc : String → Bool)
    (p : ParameterDefinition) : Except String ParameterDefinition :=
  if p.name.length = 0 then .error "name: string should have at least 1 character"
  else p.validate rc

/-- Embedding of `stable_command_id`: truncated SHA-256 of the parts joined by the unit
separator. -/
def stable_command_id (parts : List String) : String :=
  String.mk ((sha256HexChars (utf8Bytes (pyJoinSep "\x1f" parts))).take 16)

/-- The metadata keys the plugins write and normalization reads
(`RawArtifact.meta`); `Value.null` embeds an absent key except for `tags`,
where `.get("tags", [])` distinguishes absent from present-`None`. -/
structure Meta where
  task_name : Value := .null
  description : Value := .null
  origin : Value := .null
  raw_cmd : Value := .null
  cwd : Value := .null
  tags : Option Value := none
  package_manager : Value := .null
  script_name : Value := .null
deriving DecidableEq

/-- The `RawArtifact` model. -/
structure RawArtifact where
  type : String
  path : String
  content_snippet : Option String := none
  meta : Meta := {}
  confidence : Option ℚ := none
deriving DecidableEq

/-- The `CommandDefinition` model (its `meta` dict always holds the artifact meta
under `raw_meta`, embedded directly as `raw_meta`). -/
structure CommandDefinition where
  id : String
  name : String
  source_path : String
  origin : Origin
  description : Option String := none
  parameters : List ParameterDefinition := []
  tags : List String := []
  estimated_runtime_seconds : Option ℚ := none
  invocation : List (String × Value) := []
  raw_meta : Meta := {}
deriving DecidableEq

/-- Embedding of `CommandDefinition.create`: compute the stable id, then construct
(the pydantic `min_length=1` on `name` is the only constraint the pipeline can
violate here). -/
def CommandDefinition.create (name source_path : String) (origin : Origin)
    (description : Option String) (parameters : List ParameterDefinition)
    (tags : List String) (invocation : List (String × Value))
    (raw_meta : Meta) : Except String CommandDefinition :=
  let cmd_id := stable_command_id [origin.value, source_path, name]
  if name.length = 0 then
    .error "name: string should have at least 1 character"
  else
    .ok { id := cmd_id, name := name, source_path := source_path,
          origin := origin, description := description,
          parameters := parameters, tags := tags,
          estimated_runtime_seconds := none,
          invocation := invocation, raw_meta := raw_meta }

/-! ## Parameter inference (`normalization._extract_parameters`) -/

/-- The per-token loop of `_extract_parameters`, threading the `seen` set. -/
def extractParamsLoop (rc : String → Bool) :
    List String → List String → Except String (List ParameterDefinition)
  | [], _ => .ok []
  | tok :: rest, seen =>
    if pyStartsWith ['-', '-'] tok then
      let body := String.mk (tok.data.drop 2)
      if body.data.isEmpty then extractParamsLoop rc rest seen
      else
        match pySplitEq1 body.data with
        | some (k, v) =>
            let key := pyReplaceChar '-' '_' (pyStrip (String.mk k))
            if key ≠ "" ∧ key ∉ seen then do
              let p ← mkParameterDefinition rc
                { name := key, type := .string, required := false,
                  default := some (.str (String.mk v)),
                  description :=
                    some ("Flag --" ++ pyReplaceChar '_' '-' key ++ " value") }
              let ps ← extractParamsLoop rc rest (key :: seen)
              .ok (p :: ps)
            else extractParamsLoop rc rest seen
        | none =>
            let key := pyReplaceChar '-' '_' (pyStrip body)
            if key ≠ "" ∧ key ∉ seen then do
              let p ← mkParameterDefinition rc
                { name := key, type := .boolean, required := false,
                  default := some (.bool false),
                  description :=
                    some ("Toggle --" ++ pyReplaceChar '_' '-' key) }
              let ps ← extractParamsLoop rc rest (key :: seen)
              .ok (p :: ps)
            else extractParamsLoop rc rest seen
    else if pyStartsWith ['<'] tok ∧ pyEndsWithChar '>' tok ∧ tok.length > 2 then
      let key := pyReplaceChar '-' '_'
        (pyStrip (String.mk (tok.data.drop 1).dropLast))
      if key ≠ "" ∧ key ∉ seen then do
        let p ← mkParameterDefinition rc
          { name := key, type := .string, required := true,
            description := some ("Positional parameter " ++ tok),
            meta := [("positional", .bool true)] }
        let ps ← extractParamsLoop rc rest (key :: seen)
        .ok (p :: ps)
      else extractParamsLoop rc rest seen
    else extractParamsLoop rc rest seen

/-- Embedding of `_extract_parameters(raw_cmd)`: empty/falsy or non-string input yields
no parameters. -/
def extractParameters (rc : String → Bool) (raw_cmd : Value) :
    Except String (List ParameterDefinition) :=
  match raw_cmd with
  | .str s =>
      if s = "" then .ok []
      else extractParamsLoop rc (pySplitWs (pyStrip s)) []
  | _ => .ok []

/-! ## Confidence filter (`discovery/confidence.py`) -/

/-- The flat confidence `0.6` both plugins attach to every artifact
(spelled as a normalized rational so that concrete runs reduce in the
kernel). -/
def pluginConfidence : ℚ := ⟨3, 5, by decide, by decide⟩

/-- The default threshold `DEFAULT_CONFIDENCE_THRESHOLD = 0.35`. -/
def DEFAULT_CONFIDENCE_THRESHOLD : ℚ := ⟨7, 20, by decide, by decide⟩


/-- Embedding of `filter_by_confidence`: keep artifacts with unknown confidence or
confidence `>= threshold`. -/
def filter_by_confidence (artifacts : List RawArtifact) (threshold : ℚ) :
    List RawArtifact :=
  match artifacts with
  | [] => []
  | a :: rest =>
      match a.confidence with
      | none => a :: filter_by_confidence rest threshold
      | some c =>
          if threshold ≤ c then a :: filter_by_confidence rest threshold
          else filter_by_confidence rest threshold

/-! ## Global normalization (`normalization.normalize_artifacts`) -/

/-- The name derivation `task_name or last path segment`, then the pydantic
`name` validation at `CommandDefinition` construction (a non-string truthy
task name or an empty derived name raises a validation error). -/
def deriveName (m : Meta) (path : String) : Except String String :=
  match (if m.task_name.truthy then m.task_name
         else .str (lastPathSegment path)) with
  | .str s =>
      if s = "" then .error "name: string should have at least 1 character"
      else .ok s
  | _ => .error "name: input should be a valid string"

/-- Embedding of `Origin(a.meta.get("origin") or "other")` with the `ValueError`
fallback to `Origin.OTHER`. -/
def originOf (m : Meta) : Origin :=
  match Value.orElse m.origin (.str "other") with
  | .str s => (Origin.ofString? s).getD .OTHER
  | _ => .OTHER

/-- pydantic coercion of a metadata value into `Optional[str]`. -/
def optStrOfValue : Value → Except String (Option String)
  | .null => .ok none
  | .str s => .ok (some s)
  | _ => .error "description: input should be a valid string"

/-- pydantic coercion of one tag into `str`. -/
def tagStr : Value → Except String String
  | .str s => .ok s
  | _ => .error "tags: input should be a valid string"

/-- pydantic coercion of a tag list, failing on the first non-string. -/
def tagStrList : List Value → Except String (List String)
  | [] => .ok []
  | x :: xs => do
      let s ← tagStr x
      let ss ← tagStrList xs
      .ok (s :: ss)

/-- pydantic coercion of `a.meta.get("tags", [])` into `List[str]`. -/
def tagsOfValue : Option Value → Except String (List String)
  | none => .ok []
  | some (.list xs) => tagStrList xs
  | some _ => .error "tags: input should be a valid list"

/-- The `invocation` dict built by `normalize_artifacts`, in insertion
order. -/
def invocationOf (m : Meta) (origin : Origin) (name : String) :
    List (String × Value) :=
  let base :=
    if origin = .TASKFILE then
      [("adapter", Value.str "taskfile"), ("task_name", Value.str name)]
    else if origin = .PACKAGE_SCRIPT then
      let pm := Value.orElse m.package_manager (.str "npm")
      let sn := Value.orElse m.script_name (.str name)
      [("adapter", Value.str "npm"), ("package_manager", pm),
       ("script_name", sn)]
    else []
  if m.cwd.truthy then base ++ [("cwd", m.cwd)] else base

/-- One iteration of the `normalize_artifacts` loop; any pydantic
validation error propagates (the loop does not catch it). -/
def normalizeOne (rc : String → Bool) (a : RawArtifact) :
    Except String CommandDefinition := do
  let name ← deriveName a.meta a.path
  let origin := originOf a.meta
  let invocation := invocationOf a.meta origin name
  let params ← extractParameters rc a.meta.raw_cmd
  let description ← optStrOfValue a.meta.description
  let tags ← tagsOfValue a.meta.tags
  CommandDefinition.create name a.path origin description params tags
    invocation a.meta

/-- Embedding of `normalize_artifacts`: one `CommandDefinition` per artifact; the first
validation error aborts the whole pass. -/
def normalize_artifacts (rc : String → Bool) :
    List RawArtifact → Except String (List CommandDefinition)
  | [] => .ok []
  | a :: rest => do
      let c ← normalizeOne rc a
      let cs ← normalize_artifacts rc rest
      .ok (c :: cs)

/-! ## Filesystem model and scanner plugins

A project directory is a tree of named directories; each file carries the
result of parsing it with its recognized parser (`none` = unreadable or
invalid YAML/JSON).  `os.walk` on a non-existent or non-directory root
yields nothing, so an engine run on an invalid root is modelled as
`run plugins none`. -/

/-- A directory: its path segment name, subdirectories (in listing order)
and files (name, parse result). -/
inductive DirTree where
  | mk (name : String) (subdirs : List DirTree)
      (files : List (String × Option Value))

/-- Directory name. -/
def DirTree.name : DirTree → String
  | .mk n _ _ => n

/-- Subdirectories. -/
def DirTree.subdirs : DirTree → List DirTree
  | .mk _ ds _ => ds

/-- Files. -/
def DirTree.files : DirTree → List (String × Option Value)
  | .mk _ _ fs => fs

/-- The vendor/VCS directories both plugins prune. -/
def skipDirs : List String :=
  ["node_modules", ".git", ".venv", "dist", "build"]

/-- Embedding of `filename in files` plus opening it: the first entry with that name. -/
def findFile (files : List (String × Option Value)) (n : String) :
    Option (Option Value) :=
  match files with
  | [] => none
  | (m, c) :: rest => if m = n then some c else findFile rest n

/-- Embedding of `TaskfilePlugin._load`: `None` on a parse error, else
`yaml.safe_load(f) or {}`. -/
def taskfileLoad : Option Value → Option Value
  | none => none
  | some v => some (if v.truthy then v else .dict [])

/-- Embedding of `NpmScriptsPlugin._load`: `None` on a parse error, else the parsed
JSON document. -/
def npmLoad : Option Value → Option Value
  | none => none
  | some v => some v

/-- The artifacts `TaskfilePlugin.scan` emits for one visited directory
(`absPath` = `str(root)`, `rel` = the path relative to the project root).
An `AttributeError` from `.get`/`.items()` on a non-mapping propagates. -/
def taskfileDirArtifacts (filename absPath : String) (rel : List String)
    (files : List (String × Option Value)) :
    Except String (List RawArtifact) :=
  match findFile files filename with
  | none => .ok []
  | some content =>
    match taskfileLoad content with
    | none => .ok []
    | some data =>
      if !data.truthy then .ok []
      else do
        let file_path := absPath ++ "/" ++ filename
        let tasksVal ← data.get? "tasks" (.dict [])
        let entries ← tasksVal.items
        let rel_str := String.intercalate "/" rel
        let scope_tag : Option String :=
          if rel_str ≠ "" then some ("scope:" ++ rel_str) else none
        .ok (entries.filterMap fun e =>
          if !e.2.isDict then none
          else
            let desc := Value.orElse (e.2.getKey "desc") (e.2.getKey "description")
            let cmd := Value.orElse (e.2.getKey "cmd") (e.2.getKey "run")
            some
              { type := "task"
                path := file_path
                content_snippet :=
                  match cmd with
                  | .str s => some s
                  | _ => none
                meta :=
                  { task_name := .str e.1
                    description := desc
                    origin := .str "taskfile"
                    raw_cmd := cmd
                    cwd := .str absPath
                    tags := scope_tag.map fun t => Value.list [.str t] }
                confidence := some pluginConfidence })

mutual

/-- Embedding of `os.walk` for `TaskfilePlugin.scan`: process the current directory,
then recurse into the non-pruned subdirectories in order. -/
def taskfileWalk (filename absPath : String) (rel : List String) :
    DirTree → Except String (List RawArtifact)
  | .mk _ ds fs => do
      let here ← taskfileDirArtifacts filename absPath rel fs
      let deeper ← taskfileWalkList filename absPath rel ds
      .ok (here ++ deeper)

/-- Walk a list of subdirectories in order, pruning the skip set
(`dirs[:] = [d for d in dirs if d not in skip_dirs]`). -/
def taskfileWalkList (filename absPath : String) (rel : List String) :
    List DirTree → Except String (List RawArtifact)
  | [] => .ok []
  | d :: ds =>
      if skipDirs.contains d.name then
        taskfileWalkList filename absPath rel ds
      else do
        let xs ← taskfileWalk filename (absPath ++ "/" ++ d.name)
          (rel ++ [d.name]) d
        let ys ← taskfileWalkList filename absPath rel ds
        .ok (xs ++ ys)

end

/-- Embedding of `NpmScriptsPlugin._detect_pm`: explicit `packageManager` field first,
then lockfiles in the current directory, else `npm`. -/
def npmDetectPm (t : DirTree) (pkg : Value) : String :=
  let lockfiles :=
    if (findFile t.files "pnpm-lock.yaml").isSome ∨
        (t.subdirs.map DirTree.name).contains "pnpm-lock.yaml" then "pnpm"
    else if (findFile t.files "package-lock.json").isSome ∨
        (t.subdirs.map DirTree.name).contains "package-lock.json" then "npm"
    else "npm"
  match pkg.getKey "packageManager" with
  | .str s =>
      if pyStartsWith "pnpm".data s then "pnpm"
      else if pyStartsWith "npm".data s then "npm"
      else lockfiles
  | _ => lockfiles

/-- The artifacts `NpmScriptsPlugin.scan` emits for one visited
directory. -/
def npmDirArtifacts (filename absPath : String) (rel : List String)
    (t : DirTree) : Except String (List RawArtifact) :=
  match findFile t.files filename with
  | none => .ok []
  | some content =>
    match npmLoad content with
    | none => .ok []
    | some pkg =>
      if !pkg.truthy then .ok []
      else do
        let file_path := absPath ++ "/" ++ filename
        let scriptsRaw ← pkg.get? "scripts" .null
        let scripts := Value.orElse scriptsRaw (.dict [])
        if !scripts.isDict then .ok []
        else do
          let entries ← scripts.items
          let pm := npmDetectPm t pkg
          let rel_str := String.intercalate "/" rel
          let scope_tag : Option String :=
            if rel_str ≠ "" then some ("scope:" ++ rel_str) else none
          .ok (entries.map fun e =>
            { type := "package_script"
              path := file_path
              content_snippet :=
                match e.2 with
                | .str s => some s
                | _ => none
              meta :=
                { script_name := .str e.1
                  description := .str ("package script: " ++ e.1)
                  origin := .str "package_script"
                  raw_cmd :=
                    match e.2 with
                    | .str s => .str s
                    | _ => .null
                  package_manager := .str pm
                  cwd := .str absPath
                  tags := scope_tag.map fun t' => Value.list [.str t'] }
              confidence := some pluginConfidence })

mutual

/-- Embedding of `os.walk` for `NpmScriptsPlugin.scan`. -/
def npmWalk (filename absPath : String) (rel : List String) :
    DirTree → Except String (List RawArtifact)
  | .mk n ds fs => do
      let here ← npmDirArtifacts filename absPath rel (.mk n ds fs)
      let deeper ← npmWalkList filename absPath rel ds
      .ok (here ++ deeper)

/-- Walk a list of subdirectories in order, pruning the skip set. -/
def npmWalkList (filename absPath : String) (rel : List String) :
    List DirTree → Except String (List RawArtifact)
  | [] => .ok []
  | d :: ds =>
      if skipDirs.contains d.name then
        npmWalkList filename absPath rel ds
      else do
        let xs ← npmWalk filename (absPath ++ "/" ++ d.name)
          (rel ++ [d.name]) d
        let ys ← npmWalkList filename absPath rel ds
        .ok (xs ++ ys)

end

/-! ## Discovery engine (`discovery/engine.py`) -/

/-- A discovery plugin: the four phase methods.  `scan` takes the project
root (`none` = non-existent or not a directory, on which `os.walk` yields
nothing). -/
structure Plugin where
  scan : Option DirTree → Except String (List RawArtifact)
  classify : RawArtifact → Option RawArtifact
  extract : RawArtifact → Option RawArtifact
  normalize : List RawArtifact → List RawArtifact

/-- Embedding of `TaskfilePlugin(filename)`: identity classify/extract/normalize. -/
def TaskfilePluginWith (filename : String) : Plugin where
  scan root :=
    match root with
    | none => .ok []
    | some t => taskfileWalk filename t.name [] t
  classify := some
  extract := some
  normalize := id

/-- The `TaskfilePlugin()` instance with the default `Taskfile.yml`. -/
def taskfilePlugin : Plugin := TaskfilePluginWith "Taskfile.yml"

/-- Embedding of `NpmScriptsPlugin(filename)`. -/
def NpmScriptsPluginWith (filename : String) : Plugin where
  scan root :=
    match root with
    | none => .ok []
    | some t => npmWalk filename t.name [] t
  classify := some
  extract := some
  normalize := id

/-- The `NpmScriptsPlugin()` instance with the default `package.json`. -/
def npmScriptsPlugin : Plugin := NpmScriptsPluginWith "package.json"

/-- The `DiscoveryResult` bundle. -/
structure DiscoveryResult where
  raw_artifacts : List RawArtifact
  commands : List CommandDefinition
deriving DecidableEq

/-- The scan phase: concatenate the scan output of every plugin in plugin
order. -/
def collectScan (plugins : List Plugin) (root : Option DirTree) :
    Except String (List RawArtifact) :=
  match plugins with
  | [] => .ok []
  | p :: ps => do
      let xs ← p.scan root
      let ys ← collectScan ps root
      .ok (xs ++ ys)

/-- The classify/extract fan-out: every plugin processes every collected
artifact, then applies its own `normalize`; the per-plugin interim lists
are concatenated. -/
def enrichPhase (plugins : List Plugin) (collected : List RawArtifact) :
    List RawArtifact :=
  match plugins with
  | [] => []
  | p :: ps =>
      p.normalize (collected.filterMap fun a => (p.classify a).bind p.extract)
        ++ enrichPhase ps collected

/-- Embedding of `DiscoveryEngine.run`: scan, classify/extract, confidence-filter,
globally normalize.  No validation of `project_root` happens anywhere;
exceptions raised by a plugin scan or by normalization propagate. -/
def DiscoveryEngine.run (rc : String → Bool) (plugins : List Plugin)
    (root : Option DirTree) : Except String DiscoveryResult := do
  let collected ← collectScan plugins root
  let enriched := enrichPhase plugins collected
  let filtered := filter_by_confidence enriched DEFAULT_CONFIDENCE_THRESHOLD
  let commands ← normalize_artifacts rc filtered
  .ok { raw_artifacts := filtered, commands := commands }

/-! ## Derived predicates, spec-side formulations and concrete
inputs used by the theorems -/

/-- The retention predicate of `filter_by_confidence` as a standalone
boolean. -/
def keepConfidence (threshold : ℚ) (a : RawArtifact) : Bool :=
  match a.confidence with
  | none => true
  | some c => threshold ≤ c

/-- The construction invariants as §3 of the spec words them, as a boolean
violation predicate: `enum` only with type `enum` and non-empty; `min`/`max`
only for numeric types; `regex` only for strings and the pattern must
compile; `required` excludes a default. -/
def violatesInvariant (rc : String → Bool) (p : ParameterDefinition) : Bool :=
  (p.enum.isSome && (!(p.type = PType.enum) || p.enum = some [])) ||
  ((p.min.isSome || p.max.isSome)
    && !(p.type = PType.integer || p.type = PType.float)) ||
  (match p.regex with
   | some r => !(p.type = PType.string) || !rc r
   | none => false) ||
  (p.required && p.default.isSome)

/-- The id formula exactly as the spec words it: SHA-256 of the three
identifying strings joined by the unit separator, truncated to 16 hex
characters. -/
def specStableId (origin source_path name : String) : String :=
  String.mk ((sha256HexChars (utf8Bytes
    (origin ++ "\x1f" ++ source_path ++ "\x1f" ++ name))).take 16)

/-- A command produced by `CommandDefinition.create` with the `build` task
triple (concrete witness input for the id factory). -/
def cmdBuildPlain : CommandDefinition :=
  { id := "b5badd67d057936c", name := "build",
    source_path := "proj/Taskfile.yml", origin := .TASKFILE,
    description := none, parameters := [], tags := [],
    estimated_runtime_seconds := none, invocation := [], raw_meta := {} }

/-- The parameter a single token yields under the §4.3 rules, before
deduplication: `--key=value` gives an optional string with default,
`--flag` a boolean defaulting to false, `<pos>` (length > 2) a required
positional string; every other token (and a token with an empty derived
name) yields nothing. -/
def tokenParam (tok : String) : Option ParameterDefinition :=
  if pyStartsWith ['-', '-'] tok then
    let body := String.mk (tok.data.drop 2)
    if body.data.isEmpty then none
    else
      match pySplitEq1 body.data with
      | some (k, v) =>
          let key := pyReplaceChar '-' '_' (pyStrip (String.mk k))
          if key = "" then none
          else some { name := key, type := .string, required := false,
                      default := some (.str (String.mk v)),
                      description :=
                        some ("Flag --" ++ pyReplaceChar '_' '-' key
                          ++ " value") }
      | none =>
          let key := pyReplaceChar '-' '_' (pyStrip body)
          if key = "" then none
          else some { name := key, type := .boolean, required := false,
                      default := some (.bool false),
                      description :=
                        some ("Toggle --" ++ pyReplaceChar '_' '-' key) }
  else if pyStartsWith ['<'] tok ∧ pyEndsWithChar '>' tok ∧ tok.length > 2 then
    let key := pyReplaceChar '-' '_'
      (pyStrip (String.mk (tok.data.drop 1).dropLast))
    if key = "" then none
    else some { name := key, type := .string, required := true,
                description := some ("Positional parameter " ++ tok),
                meta := [("positional", .bool true)] }
  else none

/-- First-seen-wins deduplication by derived parameter name. -/
def dedupFirst : List ParameterDefinition → List String →
    List ParameterDefinition
  | [], _ => []
  | p :: ps, seen =>
      if p.name ∈ seen then dedupFirst ps seen
      else p :: dedupFirst ps (p.name :: seen)

/-- pydantic `Optional[str]`-compatibility of a metadata value. -/
def Value.isNullOrStr : Value → Bool
  | .null => true
  | .str _ => true
  | _ => false

/-- Is a value a string? -/
def Value.isStrV : Value → Bool
  | .str _ => true
  | _ => false

/-- Compatibility with `.get("tags", [])`: absent, or a list of strings. -/
def tagsWF : Option Value → Bool
  | none => true
  | some (.list xs) => xs.all Value.isStrV
  | some _ => false

/-- Metadata from which `normalize_artifacts` builds a command without a
validation error: the derived name is a non-empty string, the description
is null-or-string, and the tags are absent or a list of strings. -/
def artifactWF (a : RawArtifact) : Bool :=
  (deriveName a.meta a.path).isOk && (a.meta.description).isNullOrStr
    && tagsWF a.meta.tags

/-- A raw artifact exactly as `NpmScriptsPlugin.scan` emits for a script
`dev` of `proj/package.json` (declared `script_name`, no `task_name`). -/
def npmArtifactDev : RawArtifact :=
  { type := "package_script", path := "proj/package.json",
    content_snippet := some "vite",
    meta := { script_name := .str "dev",
              description := .str "package script: dev",
              origin := .str "package_script", raw_cmd := .str "vite",
              package_manager := .str "npm", cwd := .str "proj" },
    confidence := some pluginConfidence }

/-- A valid task entry: non-empty name, mapping spec, and a null-or-string
description (the mapping of task name to spec of §4.1). -/
def taskSpecOk (e : String × Value) : Bool :=
  decide (e.1 ≠ "") && e.2.isDict &&
    (Value.orElse (e.2.getKey "desc") (e.2.getKey "description")).isNullOrStr

/-- A project directory holding exactly one `Taskfile.yml` whose parsed
YAML is `{tasks: <entries>}`, and no other recognized files. -/
def singleTaskfileTree (rootName : String)
    (entries : List (String × Value)) : DirTree :=
  .mk rootName [] [("Taskfile.yml", some (.dict [("tasks", .dict entries)]))]

/-- The raw artifact `TaskfilePlugin.scan` emits for one task entry of a
root-level `Taskfile.yml`. -/
def taskArtifactOf (rootName : String) (e : String × Value) : RawArtifact :=
  { type := "task"
    path := rootName ++ "/" ++ "Taskfile.yml"
    content_snippet :=
      match Value.orElse (e.2.getKey "cmd") (e.2.getKey "run") with
      | .str s => some s
      | _ => none
    meta := { task_name := .str e.1
              description :=
                Value.orElse (e.2.getKey "desc") (e.2.getKey "description")
              origin := .str "taskfile"
              raw_cmd := Value.orElse (e.2.getKey "cmd") (e.2.getKey "run")
              cwd := .str rootName
              tags := none }
    confidence := some pluginConfidence }

/-- The two-task demo taskfile of the claim: `build` runs `echo building`
and `test` runs `echo testing`. -/
def demoTaskEntries : List (String × Value) :=
  [("build", .dict [("cmd", .str "echo building")]),
   ("test", .dict [("cmd", .str "echo testing")])]

/-! ## Basic structural facts -/

theorem pluginConfidence_eq : pluginConfidence = 6 / 10 := by
  unfold pluginConfidence
  rw [Rat.mk'_eq_divInt]
  norm_num [Rat.divInt_eq_div]

theorem default_threshold_eq : DEFAULT_CONFIDENCE_THRESHOLD = 35 / 100 := by
  unfold DEFAULT_CONFIDENCE_THRESHOLD
  rw [Rat.mk'_eq_divInt]
  norm_num [Rat.divInt_eq_div]


theorem sha256Round_length (st : List Nat) (kw : Nat × Nat) :
    (sha256Round st kw).length = st.length := by
  unfold sha256Round
  split <;> simp

theorem foldl_sha256Round_length (l : List (Nat × Nat)) (st : List Nat) :
    (l.foldl sha256Round st).length = st.length := by
  induction l generalizing st with
  | nil => rfl
  | cons kw l ih => simp [List.foldl_cons, ih, sha256Round_length]

theorem sha256Block_length (st b : List Nat) (h : st.length = 8) :
    (sha256Block st b).length = 8 := by
  unfold sha256Block
  simp [foldl_sha256Round_length, h]

theorem foldl_sha256Block_length (cs : List (List Nat)) (st : List Nat)
    (h : st.length = 8) : (cs.foldl sha256Block st).length = 8 := by
  induction cs generalizing st with
  | nil => exact h
  | cons c cs ih => exact ih _ (sha256Block_length _ _ h)

theorem sha256Words_length (msg : List Nat) : (sha256Words msg).length = 8 :=
  foldl_sha256Block_length _ _ rfl

theorem flatten_map_hex8_length (ws : List Nat) :
    ((ws.map hex8).flatten).length = 8 * ws.length := by
  induction ws with
  | nil => rfl
  | cons w ws ih =>
      simp only [List.map_cons, List.flatten_cons, List.length_append, ih,
        List.length_cons, hex8]
      simp
      omega

theorem sha256HexChars_length (msg : List Nat) :
    (sha256HexChars msg).length = 64 := by
  unfold sha256HexChars
  rw [flatten_map_hex8_length, sha256Words_length]

theorem stable_command_id_length (parts : List String) :
    (stable_command_id parts).length = 16 := by
  unfold stable_command_id
  show (String.mk _).length = 16
  simp [String.length, sha256HexChars_length]

/-- Sanity: the embedded SHA-256 matches the standard empty-message test
vector. -/
theorem sha256_empty_vector :
    String.mk (sha256HexChars []) =
      "e3b0c44298fc1c149afbf4c8996fb92427ae41e4649b934ca495991b7852b855" :=
  rfl

/-- Sanity: the embedded SHA-256 matches the standard `abc` test vector. -/
theorem sha256_abc_vector :
    String.mk (sha256HexChars (utf8Bytes "abc")) =
      "ba7816bf8f01cfea414140de5dae2223b00361a396177a9cb410ff61f20015ad" :=
  rfl

/-! ## Confidence filter -/

theorem filter_by_confidence_eq_filter (l : List RawArtifact) (t : ℚ) :
    filter_by_confidence l t = l.filter (keepConfidence t) := by
  induction l with
  | nil => rfl
  | cons a rest ih =>
      simp only [filter_by_confidence, List.filter_cons]
      cases h : a.confidence with
      | none => simp [keepConfidence, h, ih]
      | some c =>
          by_cases hc : t ≤ c <;> simp [keepConfidence, h, hc, ih]

/-- C4: the confidence filter retains exactly the artifacts whose
confidence is unset or at least the threshold (inclusive), preserving the
input order; an artifact with confidence `None` always passes, one exactly
at the default threshold 0.35 passes, one strictly below is dropped. -/
theorem confidence_filter_retains_exactly_unset_or_ge_threshold :
    (∀ (l : List RawArtifact) (t : ℚ),
        filter_by_confidence l t = l.filter (keepConfidence t)) ∧
    (∀ (t : ℚ) (a : RawArtifact),
        keepConfidence t a = true ↔
          a.confidence = none ∨ ∃ c, a.confidence = some c ∧ t ≤ c) ∧
    filter_by_confidence
        [{ type := "t", path := "p", confidence := none },
         { type := "t", path := "p", confidence := some DEFAULT_CONFIDENCE_THRESHOLD },
         { type := "t", path := "p", confidence := some ⟨17, 50, by decide, by decide⟩ }]
        DEFAULT_CONFIDENCE_THRESHOLD =
      [{ type := "t", path := "p", confidence := none },
       { type := "t", path := "p",
         confidence := some DEFAULT_CONFIDENCE_THRESHOLD }] := by
  refine ⟨filter_by_confidence_eq_filter, ?_, by decide⟩
  intro t a
  cases h : a.confidence with
  | none => simp [keepConfidence, h]
  | some c => simp [keepConfidence, h]

/-! ## Parameter-definition validation (claim C5) -/

theorem validate_isOk_iff (rc : String → Bool) (p : ParameterDefinition) :
    (p.validate rc).isOk = true ↔ violatesInvariant rc p = false := by
  rcases p with ⟨nm, ty, ds, req, df, en, mn, mx, rg, ex, mt⟩
  unfold ParameterDefinition.validate violatesInvariant
  cases ty <;> rcases en with _ | es <;> rcases rg with _ | r <;>
    rcases mn with _ | mnv <;> rcases mx with _ | mxv <;>
    cases req <;> rcases df with _ | dfv <;>
    first
      | (cases hrc : rc r <;> rcases es with _ | ⟨e0, es'⟩ <;>
          simp_all [Except.isOk, Except.toBool])
      | (cases hrc : rc r <;> simp_all [Except.isOk, Except.toBool])
      | (rcases es with _ | ⟨e0, es'⟩ <;> simp_all [Except.isOk, Except.toBool])
      | simp_all [Except.isOk, Except.toBool]

/-- An `Except` fails with some error exactly when it is not ok. -/
theorem exists_error_iff_not_isOk {α : Type} (v : Except String α) :
    (∃ e, v = .error e) ↔ v.isOk = false := by
  cases v <;> simp [Except.isOk, Except.toBool]

/-- C5: `ParameterDefinition` construction rejects with a validation error
exactly when one of the §3 invariants is violated (`enum` with a non-enum
type or empty; `min`/`max` with a non-numeric type; `regex` with a
non-string type or a non-compiling pattern; `required` with a non-null
default), and in particular fails for a string with a non-empty enum, a
boolean with `min`, an integer with `regex`, and `required` with a
default, while a construction violating none of them succeeds. -/
theorem parameter_validation_rejects_exactly_invariant_violations :
    (∀ (rc : String → Bool) (p : ParameterDefinition),
        (∃ e, p.validate rc = .error e) ↔ violatesInvariant rc p = true) ∧
    (∀ rc : String → Bool, (ParameterDefinition.validate rc
        { name := "p", type := .string, enum := some ["a"] }).isOk = false) ∧
    (∀ rc : String → Bool, (ParameterDefinition.validate rc
        { name := "p", type := .boolean, min := some 0 }).isOk = false) ∧
    (∀ rc : String → Bool, (ParameterDefinition.validate rc
        { name := "p", type := .integer, regex := some "x" }).isOk = false) ∧
    (∀ rc : String → Bool, (ParameterDefinition.validate rc
        { name := "p", type := .string, required := true,
          default := some (.str "v") }).isOk = false) ∧
    (∀ rc : String → Bool, ParameterDefinition.validate rc
        { name := "p", type := .string } =
      .ok { name := "p", type := .string }) := by
  refine ⟨?_, fun rc => rfl, fun rc => rfl, fun rc => rfl, fun rc => rfl,
    fun rc => rfl⟩
  intro rc p
  rw [exists_error_iff_not_isOk]
  have h := validate_isOk_iff rc p
  cases hv : (p.validate rc).isOk <;>
    cases hb : violatesInvariant rc p <;> simp_all

/-! ## Stable command identity (claim C2) -/

theorem stable_command_id_three (o sp n : String) :
    stable_command_id [o, sp, n] = specStableId o sp n := by
  unfold stable_command_id specStableId
  have : pyJoinSep "\x1f" [o, sp, n] = o ++ "\x1f" ++ sp ++ "\x1f" ++ n := by
    show o ++ "\x1f" ++ (sp ++ "\x1f" ++ n) = _
    simp [String.append_assoc]
  rw [this]

theorem create_ok_id (name sp : String) (origin : Origin)
    (d : Option String) (params : List ParameterDefinition)
    (tags : List String) (inv : List (String × Value)) (m : Meta)
    (c : CommandDefinition)
    (h : CommandDefinition.create name sp origin d params tags inv m = .ok c) :
    c.id = stable_command_id [origin.value, sp, name] := by
  unfold CommandDefinition.create at h
  by_cases hn : name.length = 0
  · simp [hn] at h
  · simp only [hn, if_false, if_neg hn, Except.ok.injEq] at h
    rw [← h]

/-- C2: the id the factory computes equals the SHA-256 of
`(origin, source_path, name)` joined by the unit separator, truncated to 16
hex characters; it is a pure function of that triple (identical across
repeated constructions, whatever the other fields), and differs between
realistic triples that differ in one component. -/
theorem stable_id_matches_spec_hash :
    (∀ o sp n : String,
        stable_command_id [o, sp, n] = specStableId o sp n) ∧
    (∀ (name sp : String) (origin : Origin) (d : Option String)
        (params : List ParameterDefinition) (tags : List String)
        (inv : List (String × Value)) (m : Meta) (c : CommandDefinition),
        CommandDefinition.create name sp origin d params tags inv m = .ok c →
        c.id = specStableId origin.value sp name) ∧
    (∀ (name sp : String) (origin : Origin) (d₁ : Option String)
        (p₁ : List ParameterDefinition) (t₁ : List String)
        (i₁ : List (String × Value)) (m₁ : Meta) (d₂ : Option String)
        (p₂ : List ParameterDefinition) (t₂ : List String)
        (i₂ : List (String × Value)) (m₂ : Meta) (c₁ c₂ : CommandDefinition),
        CommandDefinition.create name sp origin d₁ p₁ t₁ i₁ m₁ = .ok c₁ →
        CommandDefinition.create name sp origin d₂ p₂ t₂ i₂ m₂ = .ok c₂ →
        c₁.id = c₂.id) ∧
    stable_command_id ["taskfile", "proj/Taskfile.yml", "build"] ≠
      stable_command_id ["taskfile", "proj/Taskfile.yml", "test"] ∧
    stable_command_id ["taskfile", "proj/Taskfile.yml", "build"] ≠
      stable_command_id ["taskfile", "other/Taskfile.yml", "build"] ∧
    stable_command_id ["taskfile", "proj/Taskfile.yml", "build"] ≠
      stable_command_id ["package_script", "proj/Taskfile.yml", "build"] := by
  refine ⟨stable_command_id_three, ?_, ?_, by decide, by decide, by decide⟩
  · intro name sp origin d params tags inv m c h
    rw [create_ok_id name sp origin d params tags inv m c h,
      stable_command_id_three]
  · intro name sp origin d₁ p₁ t₁ i₁ m₁ d₂ p₂ t₂ i₂ m₂ c₁ c₂ h₁ h₂
    rw [create_ok_id name sp origin d₁ p₁ t₁ i₁ m₁ c₁ h₁,
      create_ok_id name sp origin d₂ p₂ t₂ i₂ m₂ c₂ h₂]

/-- Witness for C2: the factory at a concrete triple. -/
theorem stable_id_matches_spec_hash_witness :
    cmdBuildPlain.id = specStableId "taskfile" "proj/Taskfile.yml" "build" :=
  stable_id_matches_spec_hash.2.1 "build" "proj/Taskfile.yml" .TASKFILE
    none [] [] [] {} cmdBuildPlain rfl

/-! ## Parameter inference (claim C3) -/

/-- A string has length zero exactly when it is empty. -/
theorem pyLengthZeroIff (s : String) : s.length = 0 ↔ s = "" := by
  cases s with
  | mk data =>
      cases data with
      | nil => exact ⟨fun _ => rfl, fun _ => rfl⟩
      | cons c cs =>
          constructor
          · intro h
            simp [String.length] at h
          · intro h
            exact absurd (congrArg String.data h) (by simp)

theorem extractParamsLoop_eq (rc : String → Bool) (toks seen : List String) :
    extractParamsLoop rc toks seen =
      .ok (dedupFirst (toks.filterMap tokenParam) seen) := by
  induction toks generalizing seen with
  | nil => rfl
  | cons tok rest ih =>
      by_cases h1 : pyStartsWith ['-', '-'] tok = true
      · by_cases h2 : (String.mk (tok.data.drop 2)).data.isEmpty = true
        · simp [extractParamsLoop, tokenParam, h1, h2, ih]
        · cases hsplit : pySplitEq1 (String.mk (tok.data.drop 2)).data with
          | some kv =>
              obtain ⟨k, v⟩ := kv
              by_cases hk : pyReplaceChar '-' '_' (pyStrip (String.mk k)) = ""
              · simp [extractParamsLoop, tokenParam, h1, h2, hsplit, hk, ih]
              · by_cases hseen :
                    pyReplaceChar '-' '_' (pyStrip (String.mk k)) ∈ seen
                · simp [extractParamsLoop, tokenParam, dedupFirst, h1, h2,
                    hsplit, hk, hseen, ih]
                · simp [extractParamsLoop, tokenParam, dedupFirst,
                    mkParameterDefinition, ParameterDefinition.validate,
                    h1, h2, hsplit, hk, hseen, ih, pyLengthZeroIff,
                    Except.bind, Bind.bind]
          | none =>
              by_cases hk : pyReplaceChar '-' '_'
                  (pyStrip (String.mk (tok.data.drop 2))) = ""
              · simp [extractParamsLoop, tokenParam, h1, h2, hsplit, hk, ih]
              · by_cases hseen : pyReplaceChar '-' '_'
                    (pyStrip (String.mk (tok.data.drop 2))) ∈ seen
                · simp [extractParamsLoop, tokenParam, dedupFirst, h1, h2,
                    hsplit, hk, hseen, ih]
                · simp [extractParamsLoop, tokenParam, dedupFirst,
                    mkParameterDefinition, ParameterDefinition.validate,
                    h1, h2, hsplit, hk, hseen, ih, pyLengthZeroIff,
                    Except.bind, Bind.bind]
      · by_cases h3 : (pyStartsWith ['<'] tok ∧ pyEndsWithChar '>' tok
            ∧ tok.length > 2)
        · by_cases hk : pyReplaceChar '-' '_'
              (pyStrip (String.mk tok.data.tail.dropLast)) = ""
          · simp [extractParamsLoop, tokenParam, h1, h3, hk, ih]
          · by_cases hseen : pyReplaceChar '-' '_'
                (pyStrip (String.mk tok.data.tail.dropLast)) ∈ seen
            · simp [extractParamsLoop, tokenParam, dedupFirst, h1, h3, hk,
                hseen, ih]
            · simp [extractParamsLoop, tokenParam, dedupFirst,
                mkParameterDefinition, ParameterDefinition.validate,
                h1, h3, hk, hseen, ih, pyLengthZeroIff, Except.bind, Bind.bind]
        · simp [extractParamsLoop, tokenParam, h1, h3, ih]

/-- C3: parameter inference is the pure §4.3 function: whitespace
tokenization, the three token rules with all other tokens ignored,
first-occurrence-wins deduplication in first-seen order; empty or
non-string input yields the empty sequence; and the concrete input
`"--verbose --out=/tmp/x <file>"` yields boolean `verbose` (default
false), string `out` (default `/tmp/x`) and required positional string
`file`, in that order. -/
theorem parameter_inference_follows_spec :
    (∀ rc : String → Bool,
        extractParameters rc (.str "--verbose --out=/tmp/x <file>") = .ok
          [{ name := "verbose", type := .boolean, required := false,
             default := some (.bool false),
             description := some "Toggle --verbose" },
           { name := "out", type := .string, required := false,
             default := some (.str "/tmp/x"),
             description := some "Flag --out value" },
           { name := "file", type := .string, required := true,
             description := some "Positional parameter <file>",
             meta := [("positional", .bool true)] }]) ∧
    (∀ rc : String → Bool, extractParameters rc (.str "") = .ok []) ∧
    (∀ (rc : String → Bool) (v : Value), (∀ s, v ≠ .str s) →
        extractParameters rc v = .ok []) ∧
    (∀ (rc : String → Bool) (s : String),
        extractParameters rc (.str s) =
          .ok (dedupFirst ((pySplitWs (pyStrip s)).filterMap tokenParam)
            [])) := by
  refine ⟨fun rc => rfl, fun rc => rfl, ?_, ?_⟩
  · intro rc v hv
    cases v with
    | str s => exact absurd rfl (hv s)
    | null => rfl
    | bool b => rfl
    | int n => rfl
    | list xs => rfl
    | dict kvs => rfl
  · intro rc s
    by_cases hs : s = ""
    · subst hs
      rfl
    · simp only [extractParameters, hs, if_neg hs, if_false]
      exact extractParamsLoop_eq rc _ []

/-- Witness for C3: a non-string raw command yields no parameters. -/
theorem parameter_inference_follows_spec_witness :
    extractParameters (fun _ => true) (.int 3) = .ok [] :=
  parameter_inference_follows_spec.2.2.1 (fun _ => true) (.int 3)
    (fun _ h => Value.noConfusion h)

/-! ## Normalization (claims C7 and C9) -/

theorem deriveName_ok_ne (m : Meta) (path nm : String)
    (h : deriveName m path = .ok nm) : nm ≠ "" := by
  unfold deriveName at h
  generalize (if m.task_name.truthy then m.task_name
    else Value.str (lastPathSegment path)) = v at h
  cases v with
  | str s =>
      have h' : (if s = "" then
          (Except.error "name: string should have at least 1 character" :
            Except String String)
        else .ok s) = .ok nm := h
      by_cases hs : s = ""
      · rw [if_pos hs] at h'; cases h'
      · rw [if_neg hs] at h'; cases h'; exact hs
  | null => exact Except.noConfusion h
  | bool b => exact Except.noConfusion h
  | int n => exact Except.noConfusion h
  | list xs => exact Except.noConfusion h
  | dict kvs => exact Except.noConfusion h

theorem optStrOfValue_ok (v : Value) (h : v.isNullOrStr = true) :
    ∃ d, optStrOfValue v = .ok d := by
  cases v <;> simp_all [optStrOfValue, Value.isNullOrStr]

theorem tagStrList_ok (xs : List Value) :
    xs.all Value.isStrV = true → ∃ ss, tagStrList xs = .ok ss := by
  induction xs with
  | nil => exact fun _ => ⟨[], rfl⟩
  | cons x xs ih =>
      intro h
      simp only [List.all_cons, Bool.and_eq_true] at h
      obtain ⟨hx, hxs⟩ := h
      obtain ⟨ss, hss⟩ := ih hxs
      cases x with
      | str s =>
          refine ⟨s :: ss, ?_⟩
          unfold tagStrList
          simp [tagStr, Except.bind, Bind.bind, hss]
      | null => simp [Value.isStrV] at hx
      | bool b => simp [Value.isStrV] at hx
      | int n => simp [Value.isStrV] at hx
      | list ys => simp [Value.isStrV] at hx
      | dict kvs => simp [Value.isStrV] at hx

theorem tagsOfValue_ok (t : Option Value) (h : tagsWF t = true) :
    ∃ ts, tagsOfValue t = .ok ts := by
  match t with
  | none => exact ⟨[], rfl⟩
  | some (.list xs) => exact tagStrList_ok xs (by simpa [tagsWF] using h)
  | some (.null) => simp [tagsWF] at h
  | some (.bool b) => simp [tagsWF] at h
  | some (.int n) => simp [tagsWF] at h
  | some (.str s) => simp [tagsWF] at h
  | some (.dict kvs) => simp [tagsWF] at h

theorem extractParameters_ok (rc : String → Bool) (v : Value) :
    ∃ ps, extractParameters rc v = .ok ps := by
  cases v with
  | str s =>
      by_cases hs : s = ""
      · subst hs; exact ⟨[], rfl⟩
      · refine ⟨dedupFirst ((pySplitWs (pyStrip s)).filterMap tokenParam)
          [], ?_⟩
        show (if s = "" then Except.ok []
          else extractParamsLoop rc (pySplitWs (pyStrip s)) []) = _
        rw [if_neg hs]
        exact extractParamsLoop_eq rc _ []
  | null => exact ⟨[], rfl⟩
  | bool b => exact ⟨[], rfl⟩
  | int n => exact ⟨[], rfl⟩
  | list xs => exact ⟨[], rfl⟩
  | dict kvs => exact ⟨[], rfl⟩

theorem normalizeOne_ok (rc : String → Bool) (a : RawArtifact)
    (h : artifactWF a = true) :
    ∃ nm c, deriveName a.meta a.path = .ok nm ∧ normalizeOne rc a = .ok c ∧
      c.name = nm ∧ c.origin = originOf a.meta ∧
      c.id = stable_command_id [(originOf a.meta).value, a.path, nm] := by
  unfold artifactWF at h
  simp only [Bool.and_eq_true] at h
  obtain ⟨⟨hd, hdesc⟩, htags⟩ := h
  cases hn : deriveName a.meta a.path with
  | error e => rw [hn] at hd; cases hd
  | ok nm =>
      have hnm : nm ≠ "" := deriveName_ok_ne _ _ _ hn
      obtain ⟨d, hdv⟩ := optStrOfValue_ok _ hdesc
      obtain ⟨ts, htv⟩ := tagsOfValue_ok _ htags
      obtain ⟨ps, hps⟩ := extractParameters_ok rc a.meta.raw_cmd
      have hlen : ¬nm.length = 0 := by
        simpa [pyLengthZeroIff] using hnm
      refine ⟨nm,
        { id := stable_command_id [(originOf a.meta).value, a.path, nm],
          name := nm, source_path := a.path, origin := originOf a.meta,
          description := d, parameters := ps, tags := ts,
          estimated_runtime_seconds := none,
          invocation := invocationOf a.meta (originOf a.meta) nm,
          raw_meta := a.meta }, rfl, ?_, rfl, rfl, rfl⟩
      unfold normalizeOne
      rw [hn]
      simp only [Except.bind, Bind.bind, hps, hdv, htv]
      unfold CommandDefinition.create
      rw [if_neg hlen]

theorem normalize_artifacts_ok (rc : String → Bool) (l : List RawArtifact) :
    (∀ a ∈ l, artifactWF a = true) →
    ∃ cs, normalize_artifacts rc l = .ok cs ∧ cs.length = l.length := by
  induction l with
  | nil => exact fun _ => ⟨[], rfl, rfl⟩
  | cons a rest ih =>
      intro h
      obtain ⟨nm, c, _, hna, _, _, _⟩ :=
        normalizeOne_ok rc a (h a (List.mem_cons_self _ _))
      obtain ⟨cs, hcs, hlen⟩ := ih fun b hb => h b (List.mem_cons_of_mem _ hb)
      refine ⟨c :: cs, ?_, by simp [hlen]⟩
      unfold normalize_artifacts
      rw [hna]
      simp only [Except.bind, Bind.bind, hcs]

theorem normalize_artifacts_aborts (rc : String → Bool)
    (l : List RawArtifact) (a : RawArtifact)
    (hfail : (normalizeOne rc a).isOk = false) :
    a ∈ l → (normalize_artifacts rc l).isOk = false := by
  induction l with
  | nil => intro ha; cases ha
  | cons b rest ih =>
      intro ha
      unfold normalize_artifacts
      cases hb : normalizeOne rc b with
      | error e => simp [Except.bind, Bind.bind, hb, Except.isOk, Except.toBool]
      | ok c =>
          rcases List.mem_cons.mp ha with rfl | ha'
          · rw [hb] at hfail
            simp [Except.isOk, Except.toBool] at hfail
          · have := ih ha'
            cases hrest : normalize_artifacts rc rest with
            | error e =>
                simp [Except.bind, Bind.bind, hb, hrest, Except.isOk,
                  Except.toBool]
            | ok cs =>
                rw [hrest] at this
                simp [Except.isOk, Except.toBool] at this

/-- C7 (amended): `normalize_artifacts` catches nothing: one artifact with
well-formed metadata normalizes to one command (so a list of well-formed
artifacts yields one command per artifact), but a validation error while
constructing any one `CommandDefinition` propagates and aborts
the whole pass. -/
theorem normalization_wf_succeeds_and_error_aborts :
    (∀ (rc : String → Bool) (l : List RawArtifact),
        (∀ a ∈ l, artifactWF a = true) →
        ∃ cs, normalize_artifacts rc l = .ok cs ∧ cs.length = l.length) ∧
    (∀ (rc : String → Bool) (l : List RawArtifact) (a : RawArtifact),
        a ∈ l → (normalizeOne rc a).isOk = false →
        (normalize_artifacts rc l).isOk = false) :=
  ⟨normalize_artifacts_ok,
   fun rc l a ha hf => normalize_artifacts_aborts rc l a hf ha⟩

/-- Counterexample for C7: a single artifact whose derived name is empty
(no `task_name`, empty path) makes `normalize_artifacts` raise — the
validation error is not caught at the call site, so the whole pass
aborts instead of skipping that artifact. -/
theorem normalize_artifacts_raises_on_empty_name :
    normalize_artifacts (fun _ => true) [{ type := "task", path := "" }] =
      .error "name: string should have at least 1 character" := rfl

/-- Witness for C7: a well-formed artifact list normalizes without
raising. -/
theorem normalization_wf_succeeds_and_error_aborts_witness :
    (normalize_artifacts (fun _ => true) [npmArtifactDev]).isOk = true := by
  obtain ⟨cs, hcs, _⟩ := normalization_wf_succeeds_and_error_aborts.1
    (fun _ => true) [npmArtifactDev] (by decide)
  rw [hcs]
  rfl

theorem normalizeOne_name (rc : String → Bool) (a : RawArtifact)
    (c : CommandDefinition) (h : normalizeOne rc a = .ok c) :
    deriveName a.meta a.path = .ok c.name := by
  unfold normalizeOne at h
  cases hd : deriveName a.meta a.path with
  | error e =>
      rw [hd] at h
      exact Except.noConfusion h
  | ok nm =>
      rw [hd] at h
      cases hp : extractParameters rc a.meta.raw_cmd with
      | error e => rw [hp] at h; exact Except.noConfusion h
      | ok ps =>
          rw [hp] at h
          cases hdv : optStrOfValue a.meta.description with
          | error e => rw [hdv] at h; exact Except.noConfusion h
          | ok d =>
              rw [hdv] at h
              cases htv : tagsOfValue a.meta.tags with
              | error e => rw [htv] at h; exact Except.noConfusion h
              | ok ts =>
                  rw [htv] at h
                  have h' : CommandDefinition.create nm a.path
                      (originOf a.meta) d ps ts
                      (invocationOf a.meta (originOf a.meta) nm) a.meta =
                      .ok c := h
                  unfold CommandDefinition.create at h'
                  by_cases hnm : nm.length = 0
                  · rw [if_pos hnm] at h'; cases h'
                  · rw [if_neg hnm] at h'
                    cases h'
                    rfl

/-- C9 (amended): normalization derives the command name from the
metadata key `task_name` only; when `task_name` is absent it falls back
to the last path segment of the file path even when a declared
`script_name` is present, so package-script commands are named after the
manifest file. -/
theorem name_derived_from_task_name_only (rc : String → Bool)
    (a : RawArtifact) (c : CommandDefinition)
    (h : normalizeOne rc a = .ok c) :
    (a.meta.task_name = .null → c.name = lastPathSegment a.path) ∧
    (∀ s, s ≠ "" → a.meta.task_name = .str s → c.name = s) := by
  have hd := normalizeOne_name rc a c h
  constructor
  · intro hnull
    unfold deriveName at hd
    rw [hnull] at hd
    have h' : (if lastPathSegment a.path = "" then
        (Except.error "name: string should have at least 1 character" :
          Except String String)
      else .ok (lastPathSegment a.path)) = .ok c.name := hd
    by_cases hl : lastPathSegment a.path = ""
    · rw [if_pos hl] at h'; cases h'
    · rw [if_neg hl] at h'
      exact (Except.ok.inj h').symm
  · intro s hs hstr
    unfold deriveName at hd
    rw [hstr] at hd
    rw [show (Value.str s).truthy = true by simp [Value.truthy, hs]] at hd
    have h' : (if s = "" then
        (Except.error "name: string should have at least 1 character" :
          Except String String)
      else .ok s) = .ok c.name := hd
    rw [if_neg hs] at h'
    exact (Except.ok.inj h').symm

/-- Counterexample for C9: the artifact for package script `dev` yields a
command named `package.json`, not `dev`. -/
theorem package_script_command_named_after_manifest :
    (normalize_artifacts (fun _ => true) [npmArtifactDev]).toOption.map
      (List.map CommandDefinition.name) = some ["package.json"] ∧
    ("package.json" : String) ≠ "dev" := ⟨rfl, by decide⟩

/-- Witness for C9: the fallback at the concrete npm artifact. -/
theorem name_derived_from_task_name_only_witness :
    (normalize_artifacts (fun _ => true) [npmArtifactDev]).toOption.map
      (List.map CommandDefinition.name) =
      some [lastPathSegment npmArtifactDev.path] := by
  obtain ⟨c, hc⟩ : ∃ c, normalizeOne (fun _ => true) npmArtifactDev = .ok c :=
    ⟨_, rfl⟩
  have hname := (name_derived_from_task_name_only (fun _ => true)
    npmArtifactDev c hc).1 rfl
  have h2 : normalize_artifacts (fun _ => true) [npmArtifactDev] =
      .ok [c] := by
    unfold normalize_artifacts
    rw [hc]
    rfl
  rw [h2]
  simp [Except.toOption, hname]

/-! ## Scan failure semantics (claim C8) and engine preconditions
(claim C6) -/

/-- C8: evaluating the scan phase at the failing inputs: a `Taskfile.yml`
whose (valid) YAML maps `tasks` to a string makes `TaskfilePlugin.scan`
raise `AttributeError`, and a `package.json` whose JSON is a (truthy)
array makes `NpmScriptsPlugin.scan` raise; by contrast files that fail to
parse are skipped silently, and scanning continues into sibling
directories past an unparseable file. -/
theorem scan_raises_on_valid_yaml_non_mapping :
    taskfilePlugin.scan (some (.mk "proj" []
      [("Taskfile.yml", some (.dict [("tasks", .str "hello")]))])) =
      .error "AttributeError: object has no attribute items" ∧
    npmScriptsPlugin.scan (some (.mk "proj" []
      [("package.json", some (.list [.int 1, .int 2]))])) =
      .error "AttributeError: object has no attribute get" ∧
    taskfilePlugin.scan (some (.mk "proj" [] [("Taskfile.yml", none)])) =
      .ok [] ∧
    npmScriptsPlugin.scan (some (.mk "proj" [] [("package.json", none)])) =
      .ok [] ∧
    (taskfilePlugin.scan (some (.mk "proj"
        [.mk "sub" [] [("Taskfile.yml", some (.dict [("tasks", .dict
          [("lint", .dict [("cmd", .str "ruff")])])]))]]
        [("Taskfile.yml", none)]))).toOption.map
      (List.map RawArtifact.path) = some ["proj/sub/Taskfile.yml"] :=
  ⟨rfl, rfl, rfl, rfl, rfl⟩

theorem collectScan_bundled_none (ps : List Plugin)
    (h : ∀ p ∈ ps, p = taskfilePlugin ∨ p = npmScriptsPlugin) :
    collectScan ps none = .ok [] := by
  induction ps with
  | nil => rfl
  | cons p rest ih =>
      have hrest := ih fun q hq => h q (List.mem_cons_of_mem _ hq)
      rcases h p (List.mem_cons_self _ _) with hp | hp <;> subst hp <;>
        · unfold collectScan
          rw [hrest]
          rfl

theorem enrichPhase_bundled_nil (ps : List Plugin)
    (h : ∀ p ∈ ps, p = taskfilePlugin ∨ p = npmScriptsPlugin) :
    enrichPhase ps [] = [] := by
  induction ps with
  | nil => rfl
  | cons p rest ih =>
      have hrest := ih fun q hq => h q (List.mem_cons_of_mem _ hq)
      rcases h p (List.mem_cons_self _ _) with hp | hp <;> subst hp <;>
        · unfold enrichPhase
          rw [hrest]
          rfl

/-- C6 (amended): `DiscoveryEngine.run` performs no validation of
`project_root`: on a non-existent or non-directory root the
directory walks yield nothing and `run` returns an empty ok result
without raising (while exceptions from a plugin scan or from
normalization do propagate, as the counterexample shows). -/
theorem engine_run_invalid_root_returns_empty (rc : String → Bool)
    (ps : List Plugin)
    (h : ∀ p ∈ ps, p = taskfilePlugin ∨ p = npmScriptsPlugin) :
    DiscoveryEngine.run rc ps none =
      .ok { raw_artifacts := [], commands := [] } := by
  unfold DiscoveryEngine.run
  rw [collectScan_bundled_none ps h]
  show (do
    let enriched := enrichPhase ps []
    let filtered := filter_by_confidence enriched DEFAULT_CONFIDENCE_THRESHOLD
    let commands ← normalize_artifacts rc filtered
    Except.ok ({ raw_artifacts := filtered, commands := commands } :
      DiscoveryResult)) = _
  rw [enrichPhase_bundled_nil ps h]
  rfl

/-- Counterexample for C6: with an invalid project root the engine does
not raise — it returns an ok empty result — and `run` can raise in other
cases (a plugin scan exception propagates through `run`). -/
theorem engine_run_does_not_validate_root :
    DiscoveryEngine.run (fun _ => true) [taskfilePlugin, npmScriptsPlugin]
      none = .ok { raw_artifacts := [], commands := [] } ∧
    DiscoveryEngine.run (fun _ => true) [taskfilePlugin]
      (some (.mk "proj" []
        [("Taskfile.yml", some (.dict [("tasks", .str "hello")]))])) =
      .error "AttributeError: object has no attribute items" := ⟨rfl, rfl⟩

/-- Witness for C6 (amended): the bundled-plugin engine on an invalid
root. -/
theorem engine_run_invalid_root_returns_empty_witness :
    DiscoveryEngine.run (fun _ => true) [npmScriptsPlugin] none =
      .ok { raw_artifacts := [], commands := [] } :=
  engine_run_invalid_root_returns_empty (fun _ => true) [npmScriptsPlugin]
    (by intro p hp
        simp only [List.mem_singleton] at hp
        exact Or.inr hp)

/-! ## End-to-end taskfile discovery (claim C1) -/

theorem filterMap_eq_map_of {α β : Type} (f : α → Option β) (g : α → β)
    (l : List α) : (∀ a ∈ l, f a = some (g a)) →
    l.filterMap f = l.map g := by
  induction l with
  | nil => intro _; rfl
  | cons a rest ih =>
      intro h
      rw [List.filterMap_cons, h a (List.mem_cons_self _ _),
        ih fun b hb => h b (List.mem_cons_of_mem _ hb), List.map_cons]

theorem taskfileDirArtifacts_single (rootName : String)
    (entries : List (String × Value))
    (h : ∀ e ∈ entries, taskSpecOk e = true) :
    taskfileDirArtifacts "Taskfile.yml" rootName []
      [("Taskfile.yml", some (.dict [("tasks", .dict entries)]))] =
      .ok (entries.map (taskArtifactOf rootName)) := by
  have hred : taskfileDirArtifacts "Taskfile.yml" rootName []
      [("Taskfile.yml", some (.dict [("tasks", .dict entries)]))] =
      .ok (entries.filterMap fun e =>
        if !e.2.isDict then none else some (taskArtifactOf rootName e)) :=
    rfl
  rw [hred]
  congr 1
  apply filterMap_eq_map_of
  intro e he
  have hd : e.2.isDict = true := by
    have := h e he
    unfold taskSpecOk at this
    simp only [Bool.and_eq_true] at this
    exact this.1.2
  rw [hd]
  rfl

theorem taskfile_scan_single (rootName : String)
    (entries : List (String × Value))
    (h : ∀ e ∈ entries, taskSpecOk e = true) :
    taskfilePlugin.scan (some (singleTaskfileTree rootName entries)) =
      .ok (entries.map (taskArtifactOf rootName)) := by
  show (do
    let here ← taskfileDirArtifacts "Taskfile.yml" rootName []
      [("Taskfile.yml", some (.dict [("tasks", .dict entries)]))]
    let deeper ← taskfileWalkList "Taskfile.yml" rootName [] []
    Except.ok (here ++ deeper)) = _
  rw [taskfileDirArtifacts_single rootName entries h]
  show Except.ok (entries.map (taskArtifactOf rootName) ++ []) = _
  rw [List.append_nil]

theorem taskArtifact_wf (rootName : String) (e : String × Value)
    (h : taskSpecOk e = true) :
    artifactWF (taskArtifactOf rootName e) = true ∧
    deriveName (taskArtifactOf rootName e).meta
      (taskArtifactOf rootName e).path = .ok e.1 := by
  unfold taskSpecOk at h
  simp only [Bool.and_eq_true, decide_eq_true_eq] at h
  obtain ⟨⟨he1, _⟩, hdesc⟩ := h
  have hderive : deriveName (taskArtifactOf rootName e).meta
      (taskArtifactOf rootName e).path = .ok e.1 := by
    unfold deriveName
    rw [show (taskArtifactOf rootName e).meta.task_name = .str e.1 from rfl]
    rw [show (Value.str e.1).truthy = true from by simp [Value.truthy, he1]]
    show (if e.1 = "" then
        (Except.error "name: string should have at least 1 character" :
          Except String String)
      else .ok e.1) = _
    rw [if_neg he1]
  refine ⟨?_, hderive⟩
  unfold artifactWF
  rw [hderive]
  show (true && Value.isNullOrStr _ && tagsWF none) = true
  rw [show (taskArtifactOf rootName e).meta.description =
    Value.orElse (e.2.getKey "desc") (e.2.getKey "description") from rfl]
  simp [hdesc, tagsWF]

theorem normalize_taskArtifacts (rc : String → Bool) (rootName : String) :
    ∀ entries : List (String × Value),
    (∀ e ∈ entries, taskSpecOk e = true) →
    ∃ cs, normalize_artifacts rc (entries.map (taskArtifactOf rootName)) =
        .ok cs ∧
      cs.map CommandDefinition.name = entries.map Prod.fst ∧
      ∀ c ∈ cs, c.origin = .TASKFILE ∧ c.id.length = 16 := by
  intro entries
  induction entries with
  | nil => exact fun _ => ⟨[], rfl, rfl, by simp⟩
  | cons e rest ih =>
      intro h
      obtain ⟨hwf, hderive⟩ :=
        taskArtifact_wf rootName e (h e (List.mem_cons_self _ _))
      obtain ⟨nm, c, hn, hone, hname, horig, _⟩ :=
        normalizeOne_ok rc (taskArtifactOf rootName e) hwf
      obtain ⟨cs, hcs, hnames, hprops⟩ :=
        ih fun x hx => h x (List.mem_cons_of_mem _ hx)
      have hnm : nm = e.1 := by
        rw [hn] at hderive
        exact Except.ok.inj hderive
      refine ⟨c :: cs, ?_, ?_, ?_⟩
      · show normalize_artifacts rc
          (taskArtifactOf rootName e :: rest.map (taskArtifactOf rootName)) =
          _
        unfold normalize_artifacts
        rw [hone]
        show (do
          let cs' ← normalize_artifacts rc
            (rest.map (taskArtifactOf rootName))
          Except.ok (c :: cs')) = _
        rw [hcs]
        rfl
      · simp [hname, hnm, hnames]
      · intro c' hc'
        rcases List.mem_cons.mp hc' with rfl | hc'
        · constructor
          · rw [horig]
            rfl
          · obtain ⟨nm', c'', hn', hone', _, _, hid''⟩ :=
              normalizeOne_ok rc (taskArtifactOf rootName e) hwf
            rw [hone'] at hone
            cases Except.ok.inj hone
            rw [hid'']
            exact stable_command_id_length _
        · exact hprops c' hc'

/-- C1: a directory with one valid task-runner file with N task entries,
scanned by the engine with only the task-runner plugin, yields exactly N
commands, named after the tasks, each with `origin = taskfile` and a
16-character id; concretely, the `build`/`test` taskfile yields exactly
those two commands with no parameters. -/
theorem taskfile_engine_yields_one_command_per_task :
    (∀ (rc : String → Bool) (rootName : String)
        (entries : List (String × Value)),
        (∀ e ∈ entries, taskSpecOk e = true) →
        ∃ res, DiscoveryEngine.run rc [taskfilePlugin]
            (some (singleTaskfileTree rootName entries)) = .ok res ∧
          res.commands.length = entries.length ∧
          res.commands.map CommandDefinition.name = entries.map Prod.fst ∧
          ∀ c ∈ res.commands, c.origin = .TASKFILE ∧ c.id.length = 16) ∧
    (∀ rc : String → Bool,
        (DiscoveryEngine.run rc [taskfilePlugin]
          (some (singleTaskfileTree "proj" demoTaskEntries))).toOption.map
            (fun r => r.commands.map fun c =>
              (c.id, c.name, c.origin, c.parameters)) =
          some [("b5badd67d057936c", "build", Origin.TASKFILE, []),
                ("427301383668a3f4", "test", Origin.TASKFILE, [])]) := by
  constructor
  · intro rc rootName entries h
    have hscan := taskfile_scan_single rootName entries h
    have hcol : collectScan [taskfilePlugin]
        (some (singleTaskfileTree rootName entries)) =
        .ok (entries.map (taskArtifactOf rootName)) := by
      unfold collectScan
      rw [hscan]
      show Except.ok (entries.map (taskArtifactOf rootName) ++ []) = _
      rw [List.append_nil]
    have henrich : enrichPhase [taskfilePlugin]
        (entries.map (taskArtifactOf rootName)) =
        entries.map (taskArtifactOf rootName) := by
      unfold enrichPhase
      rw [show ((entries.map (taskArtifactOf rootName)).filterMap fun a =>
          (taskfilePlugin.classify a).bind taskfilePlugin.extract) =
          (entries.map (taskArtifactOf rootName)).map id from
        filterMap_eq_map_of _ id _ fun a _ => rfl]
      rw [List.map_id]
      show entries.map (taskArtifactOf rootName) ++ [] = _
      rw [List.append_nil]
    have hfilter : filter_by_confidence
        (entries.map (taskArtifactOf rootName))
        DEFAULT_CONFIDENCE_THRESHOLD =
        entries.map (taskArtifactOf rootName) := by
      rw [filter_by_confidence_eq_filter]
      apply List.filter_eq_self.mpr
      intro a ha
      obtain ⟨e, _, rfl⟩ := List.mem_map.mp ha
      show decide (DEFAULT_CONFIDENCE_THRESHOLD ≤ pluginConfidence) = true
      decide
    obtain ⟨cs, hcs, hnames, hprops⟩ :=
      normalize_taskArtifacts rc rootName entries h
    refine ⟨{ raw_artifacts := entries.map (taskArtifactOf rootName),
              commands := cs }, ?_, ?_, hnames, hprops⟩
    · unfold DiscoveryEngine.run
      rw [hcol]
      simp only [Except.bind, Bind.bind]
      rw [henrich, hfilter, hcs]
    · have := congrArg List.length hnames
      simpa using this
  · intro rc
    rfl

/-- Witness for C1: the general statement applied to the demo taskfile. -/
theorem taskfile_engine_yields_one_command_per_task_witness :
    (DiscoveryEngine.run (fun _ => true) [taskfilePlugin]
      (some (singleTaskfileTree "proj" demoTaskEntries))).isOk = true := by
  obtain ⟨res, hres, _⟩ :=
    taskfile_engine_yields_one_command_per_task.1 (fun _ => true) "proj"
      demoTaskEntries (by decide)
  rw [hres]
  rfl

/-! ## Classify/extract fan-out duplication (claim C10) -/

theorem enrichPhase_identity (ps : List Plugin)
    (collected : List RawArtifact)
    (h : ∀ p ∈ ps, p.classify = some ∧ p.extract = some ∧
      p.normalize = id) :
    enrichPhase ps collected =
      (List.replicate ps.length collected).flatten := by
  induction ps with
  | nil => rfl
  | cons p rest ih =>
      obtain ⟨hc, he, hn⟩ := h p (List.mem_cons_self _ _)
      unfold enrichPhase
      rw [hc, he, hn]
      rw [show (collected.filterMap fun a => (some a).bind some) =
          collected.map id from filterMap_eq_map_of _ id _ fun a _ => rfl,
        List.map_id]
      rw [ih fun q hq => h q (List.mem_cons_of_mem _ hq)]
      rfl

theorem count_flatten_replicate {α : Type} [DecidableEq α] (k : Nat)
    (l : List α) (a : α) :
    ((List.replicate k l).flatten).count a = k * l.count a := by
  induction k with
  | zero => simp
  | succ k ih =>
      rw [List.replicate_succ, List.flatten_cons, List.count_append, ih,
        Nat.succ_mul]
      omega

theorem count_filter_of_keep {α : Type} [DecidableEq α] (p : α → Bool)
    (l : List α) (a : α) (h : p a = true) :
    (l.filter p).count a = l.count a := by
  induction l with
  | nil => rfl
  | cons b rest ih =>
      by_cases hb : p b = true
      · rw [List.filter_cons_of_pos hb, List.count_cons, List.count_cons,
          ih]
      · have hne : a ≠ b := fun hh => hb (hh ▸ h)
        rw [List.filter_cons_of_neg (by simpa using hb),
          List.count_cons_of_ne hne, ih]

theorem count_normalize_ge (rc : String → Bool) (l : List RawArtifact)
    (a : RawArtifact) (c : CommandDefinition)
    (ha : normalizeOne rc a = .ok c) :
    ∀ cs, normalize_artifacts rc l = .ok cs → l.count a ≤ cs.count c := by
  induction l with
  | nil =>
      intro cs hl
      have : Except.ok ([] : List CommandDefinition) = Except.ok cs := hl
      cases Except.ok.inj this
      simp
  | cons b rest ih =>
      intro cs hl
      unfold normalize_artifacts at hl
      cases hb : normalizeOne rc b with
      | error e => rw [hb] at hl; exact Except.noConfusion hl
      | ok cb =>
          rw [hb] at hl
          cases hrest : normalize_artifacts rc rest with
          | error e => rw [hrest] at hl; exact Except.noConfusion hl
          | ok cs' =>
              rw [hrest] at hl
              have hl' : Except.ok (cb :: cs') = Except.ok cs := hl
              cases Except.ok.inj hl'
              have hih := ih cs' hrest
              by_cases hba : a = b
              · subst hba
                have hcb : cb = c := Except.ok.inj (hb.symm.trans ha)
                subst hcb
                rw [List.count_cons_self, List.count_cons_self]
                omega
              · rw [List.count_cons_of_ne hba]
                by_cases hcb : c = cb
                · subst hcb
                  rw [List.count_cons_self]
                  omega
                · rw [List.count_cons_of_ne hcb]
                  omega

/-- C10: when the classify/extract of every plugin is the identity and its
normalize returns its input (true of both bundled plugins), each scanned
artifact that passes the confidence filter appears `k` times (for `k`
plugins) in the raw artifacts of the result — `k` times its multiplicity in
the collected scan output — and contributes at least that many identical
`CommandDefinition`s to the commands of the result. -/
theorem fanout_duplicates_each_artifact (rc : String → Bool)
    (ps : List Plugin) (root : Option DirTree) (a : RawArtifact)
    (collected : List RawArtifact) (res : DiscoveryResult)
    (hid : ∀ p ∈ ps, p.classify = some ∧ p.extract = some ∧
      p.normalize = id)
    (hcol : collectScan ps root = .ok collected)
    (hrun : DiscoveryEngine.run rc ps root = .ok res)
    (hkeep : keepConfidence DEFAULT_CONFIDENCE_THRESHOLD a = true) :
    res.raw_artifacts.count a = ps.length * collected.count a ∧
    ∀ c, normalizeOne rc a = .ok c →
      ps.length * collected.count a ≤ res.commands.count c := by
  unfold DiscoveryEngine.run at hrun
  rw [hcol] at hrun
  simp only [Except.bind, Bind.bind] at hrun
  set filtered := filter_by_confidence (enrichPhase ps collected)
    DEFAULT_CONFIDENCE_THRESHOLD with hfil
  have hcount : filtered.count a = ps.length * collected.count a := by
    rw [hfil, filter_by_confidence_eq_filter,
      enrichPhase_identity ps collected hid,
      count_filter_of_keep _ _ _ hkeep,
      count_flatten_replicate]
  cases hn : normalize_artifacts rc filtered with
  | error e =>
      rw [hn] at hrun
      exact Except.noConfusion hrun
  | ok cs =>
      rw [hn] at hrun
      have hrun' : Except.ok
          ({ raw_artifacts := filtered, commands := cs } :
            DiscoveryResult) = .ok res := hrun
      cases Except.ok.inj hrun'
      constructor
      · exact hcount
      · intro c hc
        have h2 := count_normalize_ge rc filtered a c hc cs hn
        rw [← hcount]
        exact h2

/-- Witness for C10: both bundled plugins over the demo taskfile
duplicate the `build` artifact twice. -/
theorem fanout_duplicates_each_artifact_witness :
    ((DiscoveryEngine.run (fun _ => true)
        [taskfilePlugin, npmScriptsPlugin]
        (some (singleTaskfileTree "proj" demoTaskEntries))).toOption.map
      fun r => r.raw_artifacts.count (taskArtifactOf "proj"
        ("build", .dict [("cmd", .str "echo building")]))) = some 2 := by
  have hcol : collectScan [taskfilePlugin, npmScriptsPlugin]
      (some (singleTaskfileTree "proj" demoTaskEntries)) =
      .ok (demoTaskEntries.map (taskArtifactOf "proj")) := rfl
  obtain ⟨res, hres⟩ : ∃ res, DiscoveryEngine.run (fun _ => true)
      [taskfilePlugin, npmScriptsPlugin]
      (some (singleTaskfileTree "proj" demoTaskEntries)) = .ok res :=
    ⟨_, rfl⟩
  have h := fanout_duplicates_each_artifact (fun _ => true)
    [taskfilePlugin, npmScriptsPlugin]
    (some (singleTaskfileTree "proj" demoTaskEntries))
    (taskArtifactOf "proj" ("build", .dict [("cmd", .str "echo building")]))
    (demoTaskEntries.map (taskArtifactOf "proj")) res
    (by
      intro p hp
      rcases List.mem_cons.mp hp with rfl | hp'
      · exact ⟨rfl, rfl, rfl⟩
      · rcases List.mem_singleton.mp hp' with rfl
        exact ⟨rfl, rfl, rfl⟩)
    hcol hres (by decide)
  rw [hres]
  show some (res.raw_artifacts.count _) = some 2
  rw [h.1]
  rfl

end MyCLI
